import Mathlib

/-!
Verification of the fine-tuning pipeline orchestrator
(`fine_tune_service/app`): a shallow embedding of the string-processing
helpers, the outcome classifier, the progress extractor, the batch-size
clamp, the dataset splitter, the process-output reader and the pipeline
state machine, together with theorems about the specified properties.

Conventions of the embedding:
* Python `str` is modelled by `String` (a list of characters); substring
  tests (`pat in s`) by `containsSub`.
* Python numbers appearing in progress values are modelled by exact
  rationals (`ℚ`); all values the theorems touch are integer literals,
  where binary floating point and exact arithmetic agree.
* Fallible operations return `Except String`; an exception is its message.
* External effects (the database, the child process, the network) are
  modelled as explicit state and oracle data threaded through the
  functions.
-/

namespace FineTune

/-! ## Basic string helpers (Python substring / strip / lower) -/

/-- Python `pat in s` (substring containment) on character lists. -/
def containsL : List Char → List Char → Bool
  | [], pat => pat.isEmpty
  | c :: t, pat => pat.isPrefixOf (c :: t) || containsL t pat

/-- Python `pat in s` on strings. -/
def containsSub (s pat : String) : Bool :=
  containsL s.data pat.data

/-- Python `s.lower()` (ASCII case folding suffices here). -/
def lowerStr (s : String) : String :=
  ⟨s.data.map Char.toLower⟩

/-- Python whitespace characters recognised by `str.strip` / `\s`. -/
def isPySpace (c : Char) : Bool :=
  c = ' ' || c = '\t' || c = '\n' || c = '\r' || c = '\x0b' || c = '\x0c'

/-- Python `s.strip()` on character lists. -/
def stripWs (s : List Char) : List Char :=
  ((s.dropWhile isPySpace).reverse.dropWhile isPySpace).reverse

/-- Python `s.strip()` on strings. -/
def pyStrip (s : String) : String :=
  ⟨stripWs s.data⟩

/-- Python `s.strip(c)` for a single strip character. -/
def stripChar (ch : Char) (s : List Char) : List Char :=
  ((s.dropWhile (· = ch)).reverse.dropWhile (· = ch)).reverse

/-- Join a list of strings (Python `''.join`). -/
def strJoin (l : List String) : String :=
  l.foldl (· ++ ·) ""

/-- Last `n` elements of a list (Python `l[-n:]`). -/
def lastN (n : Nat) (l : List α) : List α :=
  l.drop (l.length - n)

/-- Last `n` characters of a string (Python `s[-n:]`). -/
def lastChars (n : Nat) (s : String) : String :=
  ⟨s.data.drop (s.data.length - n)⟩

/-- Render an `Option String` the way Python string interpolation renders
`None` versus a string value. -/
def optStr : Option String → String
  | some s => s
  | none => "None"

/-- A single-quote character, used when building Python f-string messages. -/
def sq : String :=
  String.singleton (Char.ofNat 39)

/-! ## Literal and regex-fragment matching

The two progress regexes of `_parse_and_report_progress`
(`Fetching \d+ files:\s*(\d+)%` and `Iter (\d+):`) are embedded as
scanning matchers.  In both patterns every greedy repetition is followed
by a character disjoint from the repeated class, so maximal-munch
matching coincides with Python's backtracking search. -/

/-- Consume the literal `lit` from the front of `s`. -/
def dropLit : List Char → List Char → Option (List Char)
  | [], s => some s
  | _ :: _, [] => none
  | c :: cs, x :: xs => if c = x then dropLit cs xs else none

/-- Consume a nonempty run of ASCII digits, returning its value. -/
def takeDigits (s : List Char) : Option (Nat × List Char) :=
  let ds := s.takeWhile Char.isDigit
  if ds.isEmpty then none
  else some (ds.foldl (fun acc c => 10 * acc + (c.toNat - 48)) 0, s.dropWhile Char.isDigit)

/-- Try `f` at every suffix, leftmost first (Python `re.search`). -/
def scanFor (f : List Char → Option Nat) : List Char → Option Nat
  | [] => f []
  | c :: t =>
    match f (c :: t) with
    | some a => some a
    | none => scanFor f t

/-- Match `Fetching \d+ files:\s*(\d+)%` at the start of `s`,
returning the captured percentage. -/
def matchDownloadAt (s : List Char) : Option Nat :=
  match dropLit "Fetching ".data s with
  | none => none
  | some s1 =>
    match takeDigits s1 with
    | none => none
    | some (_, s2) =>
      match dropLit " files:".data s2 with
      | none => none
      | some s3 =>
        match takeDigits (s3.dropWhile isPySpace) with
        | none => none
        | some (p, s5) =>
          match s5 with
          | '%' :: _ => some p
          | _ => none

/-- `re.search(r'Fetching \d+ files:\s*(\d+)%', line)`. -/
def findDownload (s : List Char) : Option Nat :=
  scanFor matchDownloadAt s

/-- Match `Iter (\d+):` at the start of `s`, returning the iteration. -/
def matchIterAt (s : List Char) : Option Nat :=
  match dropLit "Iter ".data s with
  | none => none
  | some s1 =>
    match takeDigits s1 with
    | none => none
    | some (k, s2) =>
      match s2 with
      | ':' :: _ => some k
      | _ => none

/-- `re.search(r'Iter (\d+):', line)`. -/
def findIter (s : List Char) : Option Nat :=
  scanFor matchIterAt s

/-! ## Outcome classifier (`FineTuneService.is_mlx_error`) -/

/-- The fixed list of strong error markers of `is_mlx_error`. -/
def errorIndicators : List String :=
  ["Error:", "Exception:", "Failed to", "Cannot", "No such file",
   "Permission denied", "Out of memory", "CUDA error", "RuntimeError",
   "ValueError", "FileNotFoundError", "Repository not found",
   "Model not found", "Access denied", "401 Client Error",
   "404 Client Error", "TypeError:", "query_pre_attn_scalar",
   "missing 1 required positional argument"]

/-- `FineTuneService.is_mlx_error(stderr, return_code)`: decide whether a
completed MLX command is a genuine failure. -/
def isMlxError (stderr : String) (returnCode : Int) : Bool :=
  if returnCode = 0 then false
  else if errorIndicators.any (fun ind => containsSub stderr ind) then true
  else if containsSub stderr "Fetching" && containsSub stderr "0%" && !(returnCode = 0) then true
  else if containsSub stderr "Fetching" && containsSub stderr "100%" then false
  else !(returnCode = 0)

/-! ## Progress extractor (`FineTuneService._parse_and_report_progress`)

The callback payload is an optional percentage (`None` means a
description-only update) and a step description. -/

/-- The fixed completion phrases of the progress parser. -/
def completionPatterns : List String :=
  ["Training complete", "Fine-tuning complete", "Adapters saved",
   "Training finished", "Done", "Finished training"]

/-- `_parse_and_report_progress` as a pure function from an output line to
the callback payload it reports (`none` when no pattern matches). -/
def parseProgress (line : String) : Option (Option ℚ × String) :=
  match findDownload line.data with
  | some pct =>
    some (some (50 + (pct : ℚ) * (1 / 10)),
      "Downloading model files: " ++ toString pct ++ "%")
  | none =>
    match findIter line.data with
    | some k =>
      some (some (min 95 (60 + ((k : ℚ) / 100 * 30))),
        "Training iteration " ++ toString k ++ "/100")
    | none =>
      if containsSub line "Validation" || containsSub line "Val loss" then
        some (none, "Running validation...")
      else if containsSub line "Saving" || containsSub (lowerStr line) "saved" then
        some (some 95, "Saving model...")
      else if completionPatterns.any
          (fun pat => containsSub (lowerStr line) (lowerStr pat)) then
        some (some 100, "Fine-tuning completed successfully")
      else
        none

/-! ## Batch-size clamp (`FineTuneService._get_optimal_batch_size`)

The source counts the lines of the three split files; the embedding takes
those counts directly (each dataset record is written as exactly one
line). -/

/-- `_get_optimal_batch_size`, given the three split record counts. -/
def getOptimalBatchSize (trainSize validSize testSize requested : Nat) : Nat :=
  let minSize := min trainSize (min validSize testSize)
  let optimal := min requested minSize
  max 1 optimal

/-! ## Dataset creation (`utils.clean_and_split_qa_pairs`, `utils.create_data_files`) -/

/-- Python `text.replace('\\"', '"')`: unescape escaped quotes, scanning
left to right. -/
def replaceEscQuote : List Char → List Char
  | '\\' :: '"' :: rest => '"' :: replaceEscQuote rest
  | c :: rest => c :: replaceEscQuote rest
  | [] => []

/-- Match the QA-pair regex `<s>\[INST\].*?\[/INST\].*?</s>` at the start
of `s`.  `.*?` is lazy and `.` excludes newlines, so each hole is the
shortest newline-free run up to the next literal; on success the full
match and the remainder are returned. -/
def lazyUpto (lit : List Char) : List Char → Option (List Char × List Char)
  | [] => if lit.isPrefixOf ([] : List Char) then some ([], []) else none
  | c :: t =>
    if lit.isPrefixOf (c :: t) then some ([], (c :: t).drop lit.length)
    else if c = '\n' then none
    else (lazyUpto lit t).map (fun pr => (c :: pr.1, pr.2))

/-- Match one QA pair at the start of `s`. -/
def matchPairAt (s : List Char) : Option (List Char × List Char) :=
  match dropLit "<s>[INST]".data s with
  | none => none
  | some s1 =>
    match lazyUpto "[/INST]".data s1 with
    | none => none
    | some (mid1, s2) =>
      match lazyUpto "</s>".data s2 with
      | none => none
      | some (mid2, s3) =>
        some ("<s>[INST]".data ++ mid1 ++ "[/INST]".data ++ mid2 ++ "</s>".data, s3)

/-- `re.findall` for the QA-pair regex: scan left to right, emitting each
match and continuing after it.  `fuel` bounds the scan; every step
consumes at least one character, so `fuel = s.length` is exact. -/
def findAllPairsAux (fuel : Nat) (s : List Char) : List (List Char) :=
  match fuel with
  | 0 => []
  | fuel + 1 =>
    match s with
    | [] => []
    | c :: t =>
      match matchPairAt (c :: t) with
      | some (m, rest) => m :: findAllPairsAux fuel rest
      | none => findAllPairsAux fuel t

/-- `utils.clean_and_split_qa_pairs(text)`. -/
def cleanAndSplitQaPairs (text : String) : List String :=
  let cleaned := replaceEscQuote (stripChar '"' text.data)
  (findAllPairsAux cleaned.length cleaned).map (fun l => ⟨l⟩)

/-- JSON string escaping as performed by `json.dumps` with
`ensure_ascii=False`. -/
def jsonEscapeChar (c : Char) : List Char :=
  if c = '"' then ['\\', '"']
  else if c = '\\' then ['\\', '\\']
  else if c = '\n' then ['\\', 'n']
  else if c = '\r' then ['\\', 'r']
  else if c = '\t' then ['\\', 't']
  else if c.toNat < 32 then
    ['\\', 'u', '0', '0',
     (Nat.digitChar (c.toNat / 16)), (Nat.digitChar (c.toNat % 16))]
  else [c]

/-- `json.dumps({"text": pair}, ensure_ascii=False)` followed by the
(no-op) outer-quote strip of `create_data_files`. -/
def jsonTextLine (pair : String) : String :=
  let rendered := "\x7b\"text\": \"".data ++ pair.data.foldr (fun c acc => jsonEscapeChar c ++ acc) ("\"\x7d".data)
  ⟨stripChar '"' rendered⟩

/-- The flattened record list built by `create_data_files` from the
dataset rows before shuffling and splitting (`all_data`). -/
def allRecords (rows : List String) : List String :=
  (rows.map (fun r => (cleanAndSplitQaPairs r).map jsonTextLine)).flatten

/-- `utils.create_data_files`: flatten the rows into records, shuffle
(the permutation chosen at run time is passed in as `shuffle`), and slice
off the test, validation and train splits.  Returns the three record
lists (train, valid, test) and the three file paths. -/
def createDataFiles (rows : List String) (testPercent validPercent : Nat)
    (outputLocation : String) (shuffle : List String → List String) :
    (List String × List String × List String) × (String × String × String) :=
  let allData := allRecords rows
  let total := allData.length
  let _trainPercent := 100 - (testPercent + validPercent)
  let shuffled := shuffle allData
  let testSize := total * testPercent / 100
  let validSize := total * validPercent / 100
  let testData := shuffled.take testSize
  let validData := (shuffled.drop testSize).take validSize
  let trainData := shuffled.drop (testSize + validSize)
  ((trainData, validData, testData),
   (outputLocation ++ "/train.jsonl",
    outputLocation ++ "/valid.jsonl",
    outputLocation ++ "/test.jsonl"))

/-! ## Process runner output loop
(`FineTuneService._read_process_output_with_timeout` and
`_read_process_output_with_progress`, select-based branch)

Each loop iteration is driven by one `PollStep` of an oracle schedule:
the wall-clock reading at the top of the iteration, the line (if any)
`select` reported ready on each stream, and the `poll()` outcome together
with whatever remained in the pipes if the process had exited. -/

structure PollStep where
  /-- `time.time()` at the top of the iteration. -/
  now : Nat
  /-- The stdout line read this iteration (`none`: stream not ready). -/
  outLine : Option String
  /-- The stderr line read this iteration (`none`: stream not ready). -/
  errLine : Option String
  /-- `some (returncode, remaining stdout, remaining stderr)` when
  `poll()` reports the process finished. -/
  exited : Option (Int × String × String)
  deriving DecidableEq

/-- The select-based read loop of `_read_process_output_with_timeout`.
Returns `none` if the schedule runs out before the loop exits. -/
def readLoop (start timeout : Nat) :
    List PollStep → List String → List String → Option (Int × String × String)
  | [], _, _ => none
  | step :: rest, accOut, accErr =>
    if timeout < step.now - start then
      some (-1, strJoin accOut,
        "Command timed out after " ++ toString timeout ++ " seconds")
    else
      let accOut := match step.outLine with
        | some l => if l ≠ "" then accOut ++ [l] else accOut
        | none => accOut
      let accErr := match step.errLine with
        | some l => if l ≠ "" then accErr ++ [l] else accErr
        | none => accErr
      match step.exited with
      | some (rc, remOut, remErr) =>
        let accOut := if remOut ≠ "" then accOut ++ [remOut] else accOut
        let accErr := if remErr ≠ "" then accErr ++ [remErr] else accErr
        some (rc, strJoin accOut, strJoin accErr)
      | none => readLoop start timeout rest accOut accErr

/-- `_read_process_output_with_timeout` under an oracle schedule. -/
def readProcessOutputWithTimeout (start timeout : Nat) (steps : List PollStep) :
    Option (Int × String × String) :=
  readLoop start timeout steps [] []

/-- Progress events reported for one line by the progress-tracking
variant (its per-line parser swallows all exceptions, so a line yields at
most one callback invocation). -/
def lineEvents (l : String) : List (Option ℚ × String) :=
  match parseProgress l with
  | some e => [e]
  | none => []

/-- The select-based read loop of `_read_process_output_with_progress`:
identical to `readLoop` except that each captured line is also fed to the
progress parser, whose callback invocations are accumulated. -/
def readLoopProgress (start timeout : Nat) :
    List PollStep → List String → List String → List (Option ℚ × String) →
    Option ((Int × String × String) × List (Option ℚ × String))
  | [], _, _, _ => none
  | step :: rest, accOut, accErr, events =>
    if timeout < step.now - start then
      some ((-1, strJoin accOut,
        "Command timed out after " ++ toString timeout ++ " seconds"), events)
    else
      let stepOut := match step.outLine with
        | some l => if l ≠ "" then ([l], lineEvents l) else ([], [])
        | none => ([], [])
      let stepErr := match step.errLine with
        | some l => if l ≠ "" then ([l], lineEvents l) else ([], [])
        | none => ([], [])
      let accOut := accOut ++ stepOut.1
      let accErr := accErr ++ stepErr.1
      let events := events ++ stepOut.2 ++ stepErr.2
      match step.exited with
      | some (rc, remOut, remErr) =>
        let accOut := if remOut ≠ "" then accOut ++ [remOut] else accOut
        let accErr := if remErr ≠ "" then accErr ++ [remErr] else accErr
        some ((rc, strJoin accOut, strJoin accErr), events)
      | none => readLoopProgress start timeout rest accOut accErr events

/-- `_read_process_output_with_progress` under an oracle schedule. -/
def readProcessOutputWithProgress (start timeout : Nat) (steps : List PollStep) :
    Option ((Int × String × String) × List (Option ℚ × String)) :=
  readLoopProgress start timeout steps [] [] []

/-- The nonempty stdout lines a schedule fragment contributes. -/
def stdoutLinesOf (steps : List PollStep) : List String :=
  steps.filterMap (fun p =>
    match p.outLine with
    | some l => if l ≠ "" then some l else none
    | none => none)

/-! ## Database model (`database.DatabaseInterface`)

Rows of `finetune_tasks` and `finetune_master_table` are modelled as
association lists; the most recently created task row is kept first,
matching the `ORDER BY created_at DESC ... first()` read of
`get_task_status`. -/

/-- JSON-like values stored in the `metrics` / `result` columns. -/
inductive PyVal where
  | str : String → PyVal
  | num : ℚ → PyVal
  | arr : List PyVal → PyVal
  | dict : List (String × PyVal) → PyVal

/-- A row of `finetune_tasks` (the `TaskStatus` record). -/
structure FineTuneTask where
  config_id : String
  status : String
  current_step : Option String
  progress : Option ℚ
  error : Option String
  metrics : Option PyVal
  result : Option PyVal

/-- The `finetune_tasks` table, newest row first. -/
def TaskStore := List (String × FineTuneTask)

/-- `session.query(FineTuneTask).filter(task_id == tid).first()`. -/
def lookupTask : TaskStore → String → Option FineTuneTask
  | [], _ => none
  | (k, t) :: rest, tid => if k = tid then some t else lookupTask rest tid

/-- The field assignments of `update_task_status`: `status` is always
overwritten, each optional column only when the argument is present. -/
def mergeTask (t : FineTuneTask) (status : String) (currentStep : Option String)
    (progress : Option ℚ) (error : Option String)
    (metrics result : Option PyVal) : FineTuneTask :=
  { t with
    status := status
    current_step := match currentStep with
      | some v => some v
      | none => t.current_step
    progress := match progress with
      | some v => some v
      | none => t.progress
    error := match error with
      | some v => some v
      | none => t.error
    metrics := match metrics with
      | some v => some v
      | none => t.metrics
    result := match result with
      | some v => some v
      | none => t.result }

/-- `DatabaseInterface.update_task_status`: replace the first row with the
given task id, raising `ValueError` when no row matches (the session is
rolled back, so the store is unchanged). -/
def updateTaskStore (ts : TaskStore) (tid status : String)
    (currentStep : Option String) (progress : Option ℚ)
    (error : Option String) (metrics result : Option PyVal) :
    Except String (TaskStore × FineTuneTask) :=
  match ts with
  | [] => .error ("Task " ++ tid ++ " not found")
  | (k, t) :: rest =>
    if k = tid then
      let t' := mergeTask t status currentStep progress error metrics result
      .ok ((k, t') :: rest, t')
    else
      match updateTaskStore rest tid status currentStep progress error metrics result with
      | .error e => .error e
      | .ok (rest', tk) => .ok ((k, t) :: rest', tk)

/-- `DatabaseInterface.get_task_status`: latest task row for a
configuration id (newest first, so the first match). -/
def firstByConfig : TaskStore → String → Option FineTuneTask
  | [], _ => none
  | (_, t) :: rest, cid => if t.config_id = cid then some t else firstByConfig rest cid

/-- A row of `finetune_master_table` (the fields the orchestrator reads,
plus the coarse `status` column). -/
structure FTConfig where
  dataset_id : String
  processed_file_full_path : Option String
  base_model : String
  model_type : String
  finetuned_model_name : String
  batch_size : Nat
  train_split : Nat
  validation_split : Nat
  test_split : Nat
  status : String

/-- The `finetune_master_table`, keyed by configuration id. -/
def ConfigStore := List (String × FTConfig)

/-- `DatabaseInterface.get_finetune_config`. -/
def lookupConfig : ConfigStore → String → Option FTConfig
  | [], _ => none
  | (k, c) :: rest, cid => if k = cid then some c else lookupConfig rest cid

/-- `DatabaseInterface.update_finetune_status`: set the coarse status of
the matching row, returning whether a row was updated. -/
def setConfigStatus : ConfigStore → String → String → Bool × ConfigStore
  | [], _, _ => (false, [])
  | (k, c) :: rest, cid, st =>
    if k = cid then (true, (k, { c with status := st }) :: rest)
    else
      let r := setConfigStatus rest cid st
      (r.1, (k, c) :: r.2)

/-! ## Pipeline world

All external effects of one `run_fine_tuning_pipeline` invocation beyond
the two tables: the dataset rows, the environment credential, the shuffle
permutation chosen by `random.shuffle`, and the observable behaviour of
the child processes and network probes. -/

structure World where
  tasks : TaskStore
  configs : ConfigStore
  /-- `dataset_output_table`: dataset id to its `jsonl_content` rows. -/
  datasets : List (String × List String)
  /-- `HUGGINGFACE_API_TOKEN` from the environment. -/
  hfToken : Option String
  /-- Result triple of `huggingface-cli login`. -/
  hfLogin : Int × String × String
  /-- `_get_working_model`: the resolved model id, `none` when neither
  the original nor the MLX fallback could be accessed. -/
  modelResolved : Option String
  /-- `_test_model_compatibility` (true also covers the fail-open
  exception path). -/
  compatOk : Bool
  /-- The nonempty output lines of the `mlx_lm.lora` run, in the order
  they were read (`true` tags a stdout line, `false` a stderr line). -/
  fineTuneLines : List (Bool × String)
  /-- The result triple returned by `run_command_with_progress_callback`
  for the `mlx_lm.lora` run. -/
  fineTuneResult : Int × String × String
  /-- Result triple of `create_ollama_compatible_model`. -/
  createModel : Int × String × String
  /-- The permutation applied by `random.shuffle`. -/
  shuffle : List String → List String

/-- `DatabaseInterface.get_all_dataset_jsonl`. -/
def lookupDataset : List (String × List String) → String → List String
  | [], _ => []
  | (k, rs) :: rest, did => if k = did then rs else lookupDataset rest did

/-- Apply the pipeline's progress callback for each reported event: an
update of the task row to status `FINETUNING` with the event's
description and (when present) percentage.  The per-line wrapper in the
service swallows any exception, so a failed update skips the event. -/
def applyEvents (tid : String) : List (Option ℚ × String) → TaskStore → TaskStore
  | [], ts => ts
  | (p, d) :: rest, ts =>
    let ts' := match updateTaskStore ts tid "FINETUNING" (some d) p none none none with
      | .ok r => r.1
      | .error _ => ts
    applyEvents tid rest ts'

/-- The error message built by `run_fine_tuning_pipeline` when the
fine-tuning command reports failure. -/
def buildFineTuneErrorMsg (rc : Int) (stderr : String) : String :=
  let base := "Fine-tuning failed with return code " ++ toString rc
  if stderr = "" then base
  else
    let errorLines := ((stderr.splitOn "\n").map pyStrip).filter (fun l => l ≠ "")
    let inds := ["Error:", "Exception:", "Failed", "Cannot", "RuntimeError", "ValueError"]
    let actualErrors := errorLines.filter (fun l => inds.any (fun i => containsSub l i))
    if actualErrors ≠ [] then
      base ++ ": " ++ String.intercalate "; " (lastN 3 actualErrors)
    else if containsSub stderr "Traceback" then
      base ++ ": Python exception occurred (check logs for details)"
    else
      base ++ ": " ++ lastChars 500 stderr

/-- `FineTuneService.execute_fine_tuning`: resolve a working model,
pre-check compatibility, clamp the batch size to the split sizes, run the
training command (its observable behaviour supplied by the world), and
post-process the outcome with `isMlxError`.  Returns the result triple
and the configuration as mutated (`config.base_model` is overwritten with
the resolved model).  The success-path `progress_callback(100, ...)`
calls go through the database and may raise. -/
def executeFineTuning (tid : String) (cfg : FTConfig)
    (trainData validData testData : List String) (w : World) :
    Except String ((Int × String × String) × FTConfig) × World :=
  match w.modelResolved with
  | none =>
    (.ok ((1, "", "Neither " ++ cfg.base_model ++ " nor its MLX equivalent could be accessed"), cfg), w)
  | some modelToUse =>
    let cfg := { cfg with base_model := modelToUse }
    if !w.compatOk then
      (.ok ((1, "", "Model " ++ cfg.base_model ++ " is not compatible with current MLX version"), cfg), w)
    else
      let _batchSize := getOptimalBatchSize trainData.length validData.length
        testData.length cfg.batch_size
      -- the run: every captured line is fed to the progress parser, whose
      -- callback updates the task row
      let events := w.fineTuneLines.filterMap (fun l => parseProgress l.2)
      let w := { w with tasks := applyEvents tid events w.tasks }
      let rc := w.fineTuneResult.1
      let stdout := w.fineTuneResult.2.1
      let stderr := w.fineTuneResult.2.2
      if isMlxError stderr rc then
        (.ok ((rc, stdout, stderr), cfg), w)
      else if rc = 0 then
        match updateTaskStore w.tasks tid "FINETUNING"
            (some "Fine-tuning completed successfully") (some 100) none none none with
        | .error e => (.error e, w)
        | .ok r => (.ok ((rc, stdout, stderr), cfg), { w with tasks := r.1 })
      else
        match updateTaskStore w.tasks tid "FINETUNING"
            (some "Fine-tuning completed successfully") (some 100) none none none with
        | .error e => (.error e, w)
        | .ok r => (.ok ((0, stdout, stderr), cfg), { w with tasks := r.1 })

/-- The dataset metrics recorded at `DATASET_COMPLETE`. -/
def datasetMetrics (paths : String × String × String) (rowCount : Nat)
    (cfg : FTConfig) : PyVal :=
  .dict [("file_paths", .dict [("train", .str paths.1),
                               ("valid", .str paths.2.1),
                               ("test", .str paths.2.2)]),
         ("dataset_stats", .dict [("total_records", .num rowCount),
                                  ("train_split", .num cfg.train_split),
                                  ("validation_split", .num cfg.validation_split),
                                  ("test_split", .num cfg.test_split)])]

/-- The `try:` body of `run_fine_tuning_pipeline`: the staged pipeline up
to (but not including) the top-level exception handler.  The returned
`Except` is the raised exception or the task's return value; the returned
world carries every database write performed before the exception. -/
def pipelineBody (tid cid : String) (w : World) : Except String PyVal × World :=
  -- db.create_task(task_id, config_id, status='PREPARING')
  let t0 : FineTuneTask :=
    { config_id := cid, status := "PREPARING", current_step := some "Initializing",
      progress := some 0, error := none, metrics := none, result := none }
  let w := { w with tasks := (tid, t0) :: w.tasks }
  match lookupConfig w.configs cid with
  | none => (.error ("No configuration found for ID " ++ cid), w)
  | some cfg =>
    match cfg.processed_file_full_path with
    | none => (.error "processed_file_full_path is not set in configuration", w)
    | some outputDir =>
      if outputDir = "" then (.error "processed_file_full_path is not set in configuration", w)
      else
        let sc := setConfigStatus w.configs cid "In Progress"
        let w := { w with configs := sc.2 }
        if sc.1 = false then (.error ("No configuration found with id: " ++ cid), w)
        else
          match updateTaskStore w.tasks tid "DATASET_CREATION"
              (some "Creating the JSONL files for fine tuning") (some 20) none none none with
          | .error e => (.error e, w)
          | .ok r1 =>
            let w := { w with tasks := r1.1 }
            let rows := lookupDataset w.datasets cfg.dataset_id
            if rows = [] then
              (.error ("No records found for dataset " ++ cfg.dataset_id), w)
            else
              let files := createDataFiles rows cfg.test_split cfg.validation_split
                outputDir w.shuffle
              match updateTaskStore w.tasks tid "DATASET_COMPLETE"
                  (some "Dataset creation completed") (some 40) none
                  (some (datasetMetrics files.2 rows.length cfg)) none with
              | .error e => (.error e, w)
              | .ok r2 =>
                let w := { w with tasks := r2.1 }
                match updateTaskStore w.tasks tid "HF_LOGIN"
                    (some "Logging in to Hugging Face") (some 40) none none none with
                | .error e => (.error e, w)
                | .ok r3 =>
                  let w := { w with tasks := r3.1 }
                  match w.hfToken with
                  | none =>
                    (.error "HUGGINGFACE_API_TOKEN environment variable is required", w)
                  | some _ =>
                    if !(w.hfLogin.1 = 0) then
                      (.error ("Huggingface login failed: " ++ w.hfLogin.2.2), w)
                    else
                      match updateTaskStore w.tasks tid "FINETUNING"
                          (some "Starting fine-tuning") (some 50) none none none with
                      | .error e => (.error e, w)
                      | .ok r4 =>
                        let w := { w with tasks := r4.1 }
                        match executeFineTuning tid cfg files.1.1 files.1.2.1 files.1.2.2 w with
                        | (.error e, w) => (.error e, w)
                        | (.ok ft, w) =>
                          let rc := ft.1.1
                          let stderr := ft.1.2.2
                          let cfgUsed := ft.2
                          if !(rc = 0) then
                            (.error (buildFineTuneErrorMsg rc stderr), w)
                          else
                            match updateTaskStore w.tasks tid "CREATING_MODEL"
                                (some "Creating Ollama-compatible model") (some 90) none none none with
                            | .error e => (.error e, w)
                            | .ok r5 =>
                              let w := { w with tasks := r5.1 }
                              if !(w.createModel.1 = 0) then
                                (.error ("Ollama-compatible model creation failed: " ++ w.createModel.2.2), w)
                              else
                                let resultVal : PyVal :=
                                  .dict [("model_path", .str outputDir),
                                         ("model_name", .str cfgUsed.base_model),
                                         ("stdout", .str w.createModel.2.1)]
                                match updateTaskStore w.tasks tid "COMPLETED"
                                    (some "Fine-tuning completed") (some 100) none none
                                    (some resultVal) with
                                | .error e => (.error e, w)
                                | .ok r6 =>
                                  let w := { w with tasks := r6.1 }
                                  let sc2 := setConfigStatus w.configs cid "Completed"
                                  let w := { w with configs := sc2.2 }
                                  (.ok (.dict [("status", .str "COMPLETED"),
                                               ("progress", .num 100),
                                               ("result", .dict [("model_path", .str outputDir),
                                                                 ("model_name", .str cfgUsed.base_model)])]), w)

/-- The `except Exception` handler of `run_fine_tuning_pipeline`: read
back the latest persisted status for the configuration (best effort,
defaulting to progress `0` and step `"Unknown step"` when no row is
found), write a `FAILED` status whose error combines the failed step and
the exception text, set the coarse configuration status to `"Failed"`,
and re-raise the original exception.  An exception raised by the `FAILED`
write itself propagates instead (the handler's own writes are not
guarded). -/
def handleFailure (tid cid exc : String) (w : World) : Except String PyVal × World :=
  let stepS : String := match firstByConfig w.tasks cid with
    | some t => optStr t.current_step
    | none => "Unknown step"
  let prog : Option ℚ := match firstByConfig w.tasks cid with
    | some t => t.progress
    | none => some 0
  let errMsg := "Failed at " ++ sq ++ stepS ++ sq ++ ": " ++ exc
  match updateTaskStore w.tasks tid "FAILED" (some ("Failed: " ++ stepS)) prog
      (some errMsg) none none with
  | .error e2 => (.error e2, w)
  | .ok r =>
    let w := { w with tasks := r.1 }
    let sc := setConfigStatus w.configs cid "Failed"
    (.error exc, { w with configs := sc.2 })

/-- `run_fine_tuning_pipeline`: the staged body with its top-level
exception handler. -/
def runPipeline (tid cid : String) (w : World) : Except String PyVal × World :=
  match pipelineBody tid cid w with
  | (.ok v, w1) => (.ok v, w1)
  | (.error e, w1) => handleFailure tid cid e w1

/-! ## Supporting lemmas -/

/-- `containsL` decides substring containment (list infix). -/
theorem containsL_iff (s pat : List Char) : containsL s pat = true ↔ pat <:+: s := by
  induction s with
  | nil =>
    simp [containsL, List.isEmpty_iff]
  | cons c t ih =>
    simp only [containsL, Bool.or_eq_true, List.isPrefixOf_iff_prefix, ih,
      List.infix_cons_iff]

/-- Containment by a longer pattern implies containment by any infix of it. -/
theorem containsSub_of_infix {s p q : String} (h : containsSub s p = true)
    (hinf : q.data <:+: p.data) : containsSub s q = true :=
  (containsL_iff _ _).2 (hinf.trans ((containsL_iff _ _).1 h))

/-! ## Claims about the outcome classifier -/

/-- C3: for every stderr string, `is_mlx_error` applied to exit code 0
returns `false` — exit code 0 is never classified as a genuine failure,
whatever stderr contains. -/
theorem is_mlx_error_zero_exit_never_failure (stderr : String) :
    isMlxError stderr 0 = false := by
  simp [isMlxError]

/-- C4: stderr containing the strong error marker `"Error:"` together
with any non-zero exit code is classified as a genuine failure, even when
the same stderr also contains a 100% download-progress marker (the
marker check precedes every download-progress rule). -/
theorem is_mlx_error_error_marker_failure (stderr : String) (rc : Int)
    (hmark : containsSub stderr "Error:" = true) (hrc : rc ≠ 0) :
    isMlxError stderr rc = true := by
  simp [isMlxError, errorIndicators, hmark, hrc]

/-- Witness for C4 at exit code 1 and a stderr that also carries a 100%
download marker. -/
theorem is_mlx_error_error_marker_failure_witness :
    containsSub "Fetching 6 files: 100%\nError: boom" "Error:" = true ∧
    (1 : Int) ≠ 0 ∧
    isMlxError "Fetching 6 files: 100%\nError: boom" 1 = true :=
  ⟨by decide, by decide,
   is_mlx_error_error_marker_failure "Fetching 6 files: 100%\nError: boom" 1
     (by decide) (by decide)⟩

/-- C5 (failing input): for stderr consisting only of
`"Fetching 3 files: 100%"` and exit code 1 the classifier returns `true`
(genuine failure).  The check for a download stuck at 0% tests the
substring `"0%"`, which also occurs inside `"100%"`, so it fires before
the 100%-dismissal branch below it — that branch is unreachable for any
non-zero exit code, contradicting its own comment and the documented
intent. -/
theorem is_mlx_error_fetch_100_failing_input :
    isMlxError "Fetching 3 files: 100%" 1 = true := by decide

/-! ## Claim about the batch-size clamp -/

/-- C7: for requested batch size and split record counts all at least 1,
the resolved batch size is `max 1 (min requested (min train (min valid
test)))`; it never exceeds any split's record count, is never below 1,
and at split sizes (50, 3, 10) with request 25 it resolves to 3. -/
theorem optimal_batch_size_clamp (train valid test b : Nat)
    (hb : 1 ≤ b) (ht : 1 ≤ train) (hv : 1 ≤ valid) (hte : 1 ≤ test) :
    getOptimalBatchSize train valid test b = max 1 (min b (min train (min valid test))) ∧
    getOptimalBatchSize train valid test b ≤ train ∧
    getOptimalBatchSize train valid test b ≤ valid ∧
    getOptimalBatchSize train valid test b ≤ test ∧
    1 ≤ getOptimalBatchSize train valid test b ∧
    getOptimalBatchSize 50 3 10 25 = 3 := by
  unfold getOptimalBatchSize
  refine ⟨rfl, ?_, ?_, ?_, ?_, by decide⟩ <;> (dsimp only; omega)

/-- Witness for C7 at the spec's concrete instance. -/
theorem optimal_batch_size_clamp_witness :
    (1 ≤ 25 ∧ 1 ≤ 50 ∧ 1 ≤ 3 ∧ 1 ≤ 10) ∧
    getOptimalBatchSize 50 3 10 25 = max 1 (min 25 (min 50 (min 3 10))) :=
  ⟨⟨by decide, by decide, by decide, by decide⟩,
   (optimal_batch_size_clamp 50 3 10 25 (by decide) (by decide) (by decide) (by decide)).1⟩

/-! ## Claims about the progress extractor -/

/-- C6 (counterexample): the line `"Adapters saved"` produces the
save-marker event `(95, "Saving model...")`, not the completion event
with percentage 100 — the save-marker pattern (any line containing
`"Saving"` or, case-insensitively, `"saved"`) is tried before the
completion phrases, so the completion phrase `"adapters saved"` can never
be the first match. -/
theorem parse_progress_adapters_saved_counterexample :
    parseProgress "Adapters saved" = some (some 95, "Saving model...") ∧
    parseProgress "Adapters saved" ≠
      some (some 100, "Fine-tuning completed successfully") := by
  exact ⟨by decide, by decide⟩

/-- C6 (amended): any line whose lowercase form contains
`"adapters saved"` and which matches none of the earlier patterns (the
download regex, the iteration regex, the validation markers) produces the
save-marker event: percentage 95 with description `"Saving model..."`,
because such a line necessarily contains `"saved"` and the save-marker
pattern precedes the completion phrases. -/
theorem parse_progress_saved_marker_amended (line : String)
    (h1 : containsSub (lowerStr line) "adapters saved" = true)
    (h2 : findDownload line.data = none)
    (h3 : findIter line.data = none)
    (h4 : containsSub line "Validation" = false)
    (h5 : containsSub line "Val loss" = false) :
    parseProgress line = some (some 95, "Saving model...") := by
  have hsaved : containsSub (lowerStr line) "saved" = true :=
    containsSub_of_infix h1 ⟨"adapters ".data, [], by decide⟩
  simp [parseProgress, h2, h3, h4, h5, hsaved]

/-- Witness for the amended C6 at the line `"Adapters saved"`. -/
theorem parse_progress_saved_marker_amended_witness :
    containsSub (lowerStr "Adapters saved") "adapters saved" = true ∧
    findDownload "Adapters saved".data = none ∧
    findIter "Adapters saved".data = none ∧
    containsSub "Adapters saved" "Validation" = false ∧
    containsSub "Adapters saved" "Val loss" = false ∧
    parseProgress "Adapters saved" = some (some 95, "Saving model...") :=
  ⟨by decide, by decide, by decide, by decide, by decide,
   parse_progress_saved_marker_amended "Adapters saved"
     (by decide) (by decide) (by decide) (by decide) (by decide)⟩

/-! ## Claim about the dataset split -/

/-- C2: for every list of dataset rows and all train/valid/test split
percentages summing to 100 (train derived as the remainder), the split
produces test and valid record lists of exactly `⌊total * percent /
100⌋` records, assigns the rounding remainder to the train list, and the
three record counts sum to the total record count.  `shuffle` is the
permutation chosen by `random.shuffle` at run time. -/
theorem create_data_files_split_counts
    (rows : List String) (trainP validP testP : Nat)
    (hsum : trainP + validP + testP = 100)
    (out : String) (shuffle : List String → List String)
    (hperm : List.Perm (shuffle (allRecords rows)) (allRecords rows)) :
    (createDataFiles rows testP validP out shuffle).1.2.2.length =
      (allRecords rows).length * testP / 100 ∧
    (createDataFiles rows testP validP out shuffle).1.2.1.length =
      (allRecords rows).length * validP / 100 ∧
    (createDataFiles rows testP validP out shuffle).1.1.length =
      (allRecords rows).length - (allRecords rows).length * testP / 100 -
        (allRecords rows).length * validP / 100 ∧
    (createDataFiles rows testP validP out shuffle).1.1.length +
      (createDataFiles rows testP validP out shuffle).1.2.1.length +
      (createDataFiles rows testP validP out shuffle).1.2.2.length =
      (allRecords rows).length := by
  have hlen : (shuffle (allRecords rows)).length = (allRecords rows).length :=
    hperm.length_eq
  set n := (allRecords rows).length with hn
  set a := n * testP / 100 with ha
  set bsz := n * validP / 100 with hb
  have hta : n * testP ≤ n * 100 := Nat.mul_le_mul_left n (by omega)
  have htv : n * validP ≤ n * 100 := Nat.mul_le_mul_left n (by omega)
  have han : a ≤ n := by
    rw [ha]
    calc n * testP / 100 ≤ n * 100 / 100 := Nat.div_le_div_right hta
    _ = n := by omega
  have habn : a + bsz ≤ n := by
    have h1 : a * 100 ≤ n * testP := Nat.div_mul_le_self _ _
    have h2 : bsz * 100 ≤ n * validP := Nat.div_mul_le_self _ _
    have h3 : (a + bsz) * 100 ≤ n * 100 := by
      have : n * testP + n * validP ≤ n * 100 := by
        rw [← Nat.mul_add]
        exact Nat.mul_le_mul_left n (by omega)
      calc (a + bsz) * 100 = a * 100 + bsz * 100 := by ring
      _ ≤ n * testP + n * validP := Nat.add_le_add h1 h2
      _ ≤ n * 100 := this
    exact Nat.le_of_mul_le_mul_right h3 (by omega)
  unfold createDataFiles
  dsimp only
  rw [← hn, ← ha, ← hb]
  constructor
  · simp [List.length_take, hlen, Nat.min_eq_left han]
  constructor
  · simp [List.length_take, List.length_drop, hlen]
    omega
  constructor
  · simp [List.length_drop, hlen]
    omega
  · simp [List.length_take, List.length_drop, hlen]
    omega

/-- Ten dataset rows of one QA pair each, for the C2 witness. -/
def rowsC2 : List String :=
  List.replicate 10 "<s>[INST]q[/INST]a</s>"

/-- Witness for C2 at 10 records and splits 70/20/10 (identity shuffle). -/
theorem create_data_files_split_counts_witness :
    (70 + 20 + 10 = 100) ∧
    ((createDataFiles rowsC2 10 20 "/out" id).1.2.2.length =
        (allRecords rowsC2).length * 10 / 100 ∧
      (createDataFiles rowsC2 10 20 "/out" id).1.2.1.length =
        (allRecords rowsC2).length * 20 / 100 ∧
      (createDataFiles rowsC2 10 20 "/out" id).1.1.length =
        (allRecords rowsC2).length - (allRecords rowsC2).length * 10 / 100 -
          (allRecords rowsC2).length * 20 / 100 ∧
      (createDataFiles rowsC2 10 20 "/out" id).1.1.length +
        (createDataFiles rowsC2 10 20 "/out" id).1.2.1.length +
        (createDataFiles rowsC2 10 20 "/out" id).1.2.2.length =
        (allRecords rowsC2).length) :=
  ⟨by decide,
   create_data_files_split_counts rowsC2 70 20 10 (by decide) "/out" id
     (List.Perm.refl _)⟩

/-! ## Claim about the process-output reader's timeout result -/

/-- The progress events a schedule fragment's captured lines produce. -/
def progressEventsOf (steps : List PollStep) : List (Option ℚ × String) :=
  (steps.map (fun p =>
    (match p.outLine with
     | some l => if l ≠ "" then lineEvents l else []
     | none => []) ++
    (match p.errLine with
     | some l => if l ≠ "" then lineEvents l else []
     | none => []))).flatten

theorem readLoop_timeout_aux (start timeout : Nat) (s : PollStep)
    (post : List PollStep) (hs : timeout < s.now - start) :
    ∀ (pre : List PollStep) (accOut accErr : List String),
      (∀ p ∈ pre, p.now - start ≤ timeout ∧ p.exited = none) →
      readLoop start timeout (pre ++ s :: post) accOut accErr =
        some (-1, strJoin (accOut ++ stdoutLinesOf pre),
          "Command timed out after " ++ toString timeout ++ " seconds") := by
  intro pre
  induction pre with
  | nil =>
    intro accOut accErr _
    simp [readLoop, hs, stdoutLinesOf]
  | cons p pre ih =>
    intro accOut accErr hpre
    have hp := hpre p (List.mem_cons_self _ _)
    have hrest : ∀ q ∈ pre, q.now - start ≤ timeout ∧ q.exited = none :=
      fun q hq => hpre q (List.mem_cons_of_mem _ hq)
    have hnow : ¬ (timeout < p.now - start) := by omega
    simp only [List.cons_append, readLoop, if_neg hnow, hp.2]
    rw [List.append_eq, ih _ _ hrest]
    congr 2
    simp only [stdoutLinesOf, List.filterMap_cons]
    cases houtl : p.outLine with
    | none => simp
    | some l =>
      by_cases hl : l = "" <;> simp [hl]

theorem readLoopProgress_timeout_aux (start timeout : Nat) (s : PollStep)
    (post : List PollStep) (hs : timeout < s.now - start) :
    ∀ (pre : List PollStep) (accOut accErr : List String)
      (events : List (Option ℚ × String)),
      (∀ p ∈ pre, p.now - start ≤ timeout ∧ p.exited = none) →
      readLoopProgress start timeout (pre ++ s :: post) accOut accErr events =
        some ((-1, strJoin (accOut ++ stdoutLinesOf pre),
          "Command timed out after " ++ toString timeout ++ " seconds"),
          events ++ progressEventsOf pre) := by
  intro pre
  induction pre with
  | nil =>
    intro accOut accErr events _
    simp [readLoopProgress, hs, stdoutLinesOf, progressEventsOf]
  | cons p pre ih =>
    intro accOut accErr events hpre
    have hp := hpre p (List.mem_cons_self _ _)
    have hrest : ∀ q ∈ pre, q.now - start ≤ timeout ∧ q.exited = none :=
      fun q hq => hpre q (List.mem_cons_of_mem _ hq)
    have hnow : ¬ (timeout < p.now - start) := by omega
    simp only [List.cons_append, readLoopProgress, if_neg hnow, hp.2]
    rw [List.append_eq, ih _ _ _ hrest]
    simp only [stdoutLinesOf, progressEventsOf, List.filterMap_cons, List.map_cons,
      List.flatten_cons]
    cases p.outLine with
    | none =>
      cases p.errLine with
      | none => simp
      | some l2 =>
        by_cases h2 : l2 = "" <;> simp [h2, List.append_assoc]
    | some l =>
      by_cases h1 : l = "" <;>
        cases p.errLine with
        | none => simp [h1, List.append_assoc]
        | some l2 =>
          by_cases h2 : l2 = "" <;> simp [h1, h2, List.append_assoc]

/-- C9: for every run in which the wall-clock timeout expires before the
process exits, both output readers return exit code −1, stdout equal to
the concatenation of all (nonempty) stdout lines captured before the
timeout, and stderr equal to exactly the timeout message — the stderr
lines accumulated before the timeout are absent from the returned
result. -/
theorem read_process_output_timeout_result (start timeout : Nat)
    (pre : List PollStep) (s : PollStep) (post : List PollStep)
    (hpre : ∀ p ∈ pre, p.now - start ≤ timeout ∧ p.exited = none)
    (hs : timeout < s.now - start) :
    readProcessOutputWithTimeout start timeout (pre ++ s :: post) =
      some (-1, strJoin (stdoutLinesOf pre),
        "Command timed out after " ++ toString timeout ++ " seconds") ∧
    readProcessOutputWithProgress start timeout (pre ++ s :: post) =
      some ((-1, strJoin (stdoutLinesOf pre),
        "Command timed out after " ++ toString timeout ++ " seconds"),
        progressEventsOf pre) := by
  constructor
  · have := readLoop_timeout_aux start timeout s post hs pre [] [] hpre
    simpa [readProcessOutputWithTimeout] using this
  · have := readLoopProgress_timeout_aux start timeout s post hs pre [] [] [] hpre
    simpa [readProcessOutputWithProgress] using this

/-- A schedule for the C9 witness: one iteration captures a stdout line
and a stderr line, the next observes the clock past the timeout. -/
def stepC9a : PollStep :=
  { now := 1, outLine := some "ok line\n", errLine := some "noise\n", exited := none }

/-- The iteration that observes the clock past the timeout. -/
def stepC9b : PollStep :=
  { now := 10, outLine := none, errLine := none, exited := none }

def stepsC9 : List PollStep :=
  [stepC9a, stepC9b]

/-- Witness for C9: the captured stderr line is absent from the result. -/
theorem read_process_output_timeout_result_witness :
    (∀ p ∈ [stepC9a], p.now - 0 ≤ 2 ∧ p.exited = none) ∧
    readProcessOutputWithTimeout 0 2 stepsC9 =
      some (-1, strJoin (stdoutLinesOf [stepC9a]),
        "Command timed out after " ++ toString 2 ++ " seconds") := by
  refine ⟨by decide, ?_⟩
  exact (read_process_output_timeout_result 0 2 [stepC9a] stepC9b []
    (by decide) (by decide)).1

/-! ## Claim about the status-update frame -/

/-- What a successful `update_task_status` call guarantees when the task
row exists with previous value `t`: the status field is overwritten, each
absent optional argument leaves its column unchanged, a present one
overwrites it, a previously set error can never return to null, and no
other row changes. -/
def UpdateFoundSpec (ts : TaskStore) (tid status : String) (cs : Option String)
    (pr : Option ℚ) (er : Option String) (me re : Option PyVal)
    (t : FineTuneTask) : Prop :=
  ∃ ts' t', updateTaskStore ts tid status cs pr er me re = .ok (ts', t') ∧
    lookupTask ts' tid = some t' ∧
    t'.status = status ∧
    t'.current_step = (match cs with | some v => some v | none => t.current_step) ∧
    t'.progress = (match pr with | some v => some v | none => t.progress) ∧
    t'.error = (match er with | some v => some v | none => t.error) ∧
    t'.metrics = (match me with | some v => some v | none => t.metrics) ∧
    t'.result = (match re with | some v => some v | none => t.result) ∧
    (t.error.isSome = true → t'.error.isSome = true) ∧
    (∀ k, k ≠ tid → lookupTask ts' k = lookupTask ts k)

theorem updateTaskStore_found (ts : TaskStore) (tid status : String)
    (cs : Option String) (pr : Option ℚ) (er : Option String)
    (me re : Option PyVal) (t : FineTuneTask)
    (h : lookupTask ts tid = some t) :
    UpdateFoundSpec ts tid status cs pr er me re t := by
  induction ts with
  | nil => simp [lookupTask] at h
  | cons kv rest ih =>
    obtain ⟨k0, t0⟩ := kv
    by_cases hk : k0 = tid
    · subst hk
      rw [lookupTask, if_pos rfl] at h
      injection h with h
      subst h
      refine ⟨(k0, mergeTask t0 status cs pr er me re) :: rest,
        mergeTask t0 status cs pr er me re, ?_, ?_, ?_, ?_, ?_, ?_, ?_, ?_, ?_, ?_⟩
      · simp [updateTaskStore]
      · simp [lookupTask]
      · rfl
      · rfl
      · rfl
      · rfl
      · rfl
      · rfl
      · cases er <;> simp [mergeTask]
      · intro k hkne
        have hk0k : ¬ (k0 = k) := fun hkk => hkne hkk.symm
        simp [lookupTask, hk0k]
    · rw [lookupTask, if_neg hk] at h
      obtain ⟨rest', t', hupd, hlk, hst, hcs, hpr, her, hme, hre, herr, hframe⟩ := ih h
      refine ⟨(k0, t0) :: rest', t', ?_, ?_, hst, hcs, hpr, her, hme, hre, herr, ?_⟩
      · simp [updateTaskStore, if_neg hk, hupd]
      · simp [lookupTask, if_neg hk, hlk]
      · intro k hkne
        by_cases hk0 : k0 = k
        · subst hk0
          simp [lookupTask]
        · simp [lookupTask, if_neg hk0, hframe k hkne]

theorem updateTaskStore_missing (ts : TaskStore) (tid status : String)
    (cs : Option String) (pr : Option ℚ) (er : Option String)
    (me re : Option PyVal) (h : lookupTask ts tid = none) :
    updateTaskStore ts tid status cs pr er me re =
      .error ("Task " ++ tid ++ " not found") := by
  induction ts with
  | nil => rfl
  | cons kv rest ih =>
    obtain ⟨k0, t0⟩ := kv
    rw [lookupTask] at h
    by_cases hk : k0 = tid
    · rw [if_pos hk] at h
      exact absurd h (by simp)
    · rw [if_neg hk] at h
      simp [updateTaskStore, if_neg hk, ih h]

/-- C10: for every task store and every status-update call, when the task
row exists the status field is always overwritten while each absent
optional argument (step, progress, error, metrics, result) leaves its
column unchanged and other rows are untouched — in particular an error,
once set, can never be cleared back to null by a later update; and a call
naming a non-existent task id raises `ValueError` without producing any
updated store. -/
theorem update_task_status_frame (ts : TaskStore) (tid status : String)
    (cs : Option String) (pr : Option ℚ) (er : Option String)
    (me re : Option PyVal) :
    (∀ t, lookupTask ts tid = some t →
      UpdateFoundSpec ts tid status cs pr er me re t) ∧
    (lookupTask ts tid = none →
      updateTaskStore ts tid status cs pr er me re =
        .error ("Task " ++ tid ++ " not found")) :=
  ⟨fun t h => updateTaskStore_found ts tid status cs pr er me re t h,
   fun h => updateTaskStore_missing ts tid status cs pr er me re h⟩

/-- A one-row store whose task already carries an error, for the C10
witness. -/
def demoTask : FineTuneTask :=
  { config_id := "c9", status := "FINETUNING", current_step := some "step",
    progress := some 50, error := some "old error", metrics := none,
    result := none }

def demoStore : TaskStore :=
  [("a", demoTask)]

/-- Witness for C10: an update that supplies only status and progress. -/
theorem update_task_status_frame_witness :
    UpdateFoundSpec demoStore "a" "FINETUNING" none (some 55) none none none
      demoTask :=
  (update_task_status_frame demoStore "a" "FINETUNING" none (some 55) none
    none none).1 demoTask (by rfl)

/-! ## Pipeline computation lemmas -/

/-- Updating the task at the head of the store succeeds and rewrites the
head in place. -/
theorem updateTaskStore_cons_self (tid : String) (t : FineTuneTask)
    (rest : TaskStore) (status : String) (cs : Option String) (pr : Option ℚ)
    (er : Option String) (me re : Option PyVal) :
    updateTaskStore ((tid, t) :: rest) tid status cs pr er me re =
      .ok ((tid, mergeTask t status cs pr er me re) :: rest,
        mergeTask t status cs pr er me re) := by
  simp [updateTaskStore]

/-- When the configuration row exists, `update_finetune_status` reports
success and afterwards the row carries the new status. -/
theorem setConfigStatus_found (cfgs : ConfigStore) (cid st : String) (c : FTConfig)
    (h : lookupConfig cfgs cid = some c) :
    (setConfigStatus cfgs cid st).1 = true ∧
    lookupConfig (setConfigStatus cfgs cid st).2 cid = some { c with status := st } := by
  induction cfgs with
  | nil => simp [lookupConfig] at h
  | cons kv rest ih =>
    obtain ⟨k0, c0⟩ := kv
    by_cases hk : k0 = cid
    · subst hk
      rw [lookupConfig, if_pos rfl] at h
      injection h with h
      subst h
      simp [setConfigStatus, lookupConfig]
    · rw [lookupConfig, if_neg hk] at h
      obtain ⟨h1, h2⟩ := ih h
      simp [setConfigStatus, if_neg hk, lookupConfig, h1, h2]

/-! ## Claim about the HF_LOGIN failure path -/

/-- C8 (amended): in every run that reaches HF_LOGIN (configuration
present with a usable output directory, dataset nonempty) with the
registry credential missing, the pipeline fails hard — the missing-token
exception is re-raised — and the final task row has status `FAILED`,
progress `40` (the value persisted before and at entry to the HF_LOGIN
stage, hence unchanged by the failure), and `current_step` equal to
`"Failed: Logging in to Hugging Face"` — the step description, which
does not contain the stage name `"HF_LOGIN"`. -/
theorem hf_login_missing_token_amended (w : World) (tid cid : String)
    (cfg : FTConfig) (p : String)
    (hc : lookupConfig w.configs cid = some cfg)
    (hp : cfg.processed_file_full_path = some p) (hp2 : ¬ (p = ""))
    (hrows : ¬ (lookupDataset w.datasets cfg.dataset_id = []))
    (htok : w.hfToken = none) :
    (runPipeline tid cid w).1 =
        .error "HUGGINGFACE_API_TOKEN environment variable is required" ∧
    (∃ tfin, (runPipeline tid cid w).2.tasks = (tid, tfin) :: w.tasks ∧
      tfin.status = "FAILED" ∧
      tfin.current_step = some "Failed: Logging in to Hugging Face" ∧
      tfin.progress = some 40 ∧
      tfin.error = some ("Failed at " ++ sq ++ "Logging in to Hugging Face" ++ sq ++
        ": HUGGINGFACE_API_TOKEN environment variable is required")) := by
  have hsc := setConfigStatus_found w.configs cid "In Progress" cfg hc
  unfold runPipeline pipelineBody handleFailure
  dsimp only
  simp only [hc, hp, htok, hsc.1, updateTaskStore_cons_self, if_neg hp2, if_neg hrows,
    Bool.true_eq_false, if_false, mergeTask, firstByConfig, optStr]
  refine ⟨trivial, ⟨_, rfl, rfl, rfl, rfl, rfl⟩⟩

/-- A configuration row for the concrete HF_LOGIN scenario. -/
def cfgEx8 : FTConfig :=
  { dataset_id := "d1", processed_file_full_path := some "/out",
    base_model := "m", model_type := "llama", finetuned_model_name := "fm",
    batch_size := 4, train_split := 70, validation_split := 20, test_split := 10,
    status := "Pending" }

/-- A world whose environment lacks the HF token. -/
def wEx8 : World :=
  { tasks := [], configs := [("c1", cfgEx8)], datasets := [("d1", ["x"])],
    hfToken := none, hfLogin := (0, "", ""), modelResolved := none, compatOk := true,
    fineTuneLines := [], fineTuneResult := (0, "", ""), createModel := (0, "", ""),
    shuffle := id }

/-- Witness for the amended C8 at a concrete run. -/
theorem hf_login_missing_token_amended_witness :
    lookupConfig wEx8.configs "c1" = some cfgEx8 ∧
    cfgEx8.processed_file_full_path = some "/out" ∧
    ¬ (("/out" : String) = "") ∧
    ¬ (lookupDataset wEx8.datasets cfgEx8.dataset_id = []) ∧
    wEx8.hfToken = none ∧
    ((runPipeline "t1" "c1" wEx8).1 =
        .error "HUGGINGFACE_API_TOKEN environment variable is required" ∧
      (∃ tfin, (runPipeline "t1" "c1" wEx8).2.tasks = ("t1", tfin) :: wEx8.tasks ∧
        tfin.status = "FAILED" ∧
        tfin.current_step = some "Failed: Logging in to Hugging Face" ∧
        tfin.progress = some 40 ∧
        tfin.error = some ("Failed at " ++ sq ++ "Logging in to Hugging Face" ++ sq ++
          ": HUGGINGFACE_API_TOKEN environment variable is required"))) :=
  ⟨rfl, rfl, by decide, by decide, rfl,
   hf_login_missing_token_amended wEx8 "t1" "c1" cfgEx8 "/out" rfl rfl
     (by decide) (by decide) rfl⟩

/-- C8 (counterexample): in the concrete missing-token run the final task
row is `FAILED`, but its `current_step` is the step description
`"Failed: Logging in to Hugging Face"`, which does not contain the stage
name `"HF_LOGIN"` — refuting the claim that the final `current_step`
contains `"HF_LOGIN"`. -/
theorem hf_login_missing_token_counterexample :
    wEx8.hfToken = none ∧
    ((runPipeline "t1" "c1" wEx8).2.tasks.head?.map (fun kv => kv.2.status) =
      some "FAILED") ∧
    ((runPipeline "t1" "c1" wEx8).2.tasks.head?.map (fun kv => kv.2.current_step) =
      some (some "Failed: Logging in to Hugging Face")) ∧
    containsSub "Failed: Logging in to Hugging Face" "HF_LOGIN" = false := by
  refine ⟨rfl, ?_, ?_, by decide⟩ <;> rfl

/-! ## Claim about the top-level exception handler -/

/-- During one pipeline run the task store always keeps this run's task
row in front (it is created first and every later write replaces it in
place), and that row belongs to this run's configuration. -/
def StoreShape (tid cid : String) (ts : TaskStore) : Prop :=
  ∃ t rest, ts = (tid, t) :: rest ∧ t.config_id = cid

theorem shape_update_ok {tid cid : String} {ts : TaskStore} (h : StoreShape tid cid ts)
    {st : String} {cs : Option String} {pr : Option ℚ} {er : Option String}
    {me re : Option PyVal} {r : TaskStore × FineTuneTask}
    (heq : updateTaskStore ts tid st cs pr er me re = .ok r) :
    StoreShape tid cid r.1 := by
  obtain ⟨t, rest, rfl, hcfg⟩ := h
  rw [updateTaskStore_cons_self] at heq
  injection heq with heq
  subst heq
  exact ⟨_, rest, rfl, hcfg⟩

theorem applyEvents_shape (tid cid : String) (evs : List (Option ℚ × String)) :
    ∀ ts, StoreShape tid cid ts → StoreShape tid cid (applyEvents tid evs ts) := by
  induction evs with
  | nil => intro ts h; exact h
  | cons e evs ih =>
    intro ts h
    obtain ⟨t, rest, rfl, hcfg⟩ := h
    obtain ⟨p, d⟩ := e
    rw [applyEvents, updateTaskStore_cons_self]
    exact ih _ ⟨_, rest, rfl, hcfg⟩

theorem executeFineTuning_shape (tid cid : String) (cfg : FTConfig)
    (a b c : List String) (w : World) (h : StoreShape tid cid w.tasks) :
    StoreShape tid cid ((executeFineTuning tid cfg a b c w).2).tasks := by
  unfold executeFineTuning
  have hev : StoreShape tid cid
      (applyEvents tid (w.fineTuneLines.filterMap (fun l => parseProgress l.2)) w.tasks) :=
    applyEvents_shape tid cid _ w.tasks h
  split
  · exact h
  · split
    · exact h
    · dsimp only
      split
      · exact hev
      · split
        · split
          · exact hev
          · next r heq => exact shape_update_ok hev heq
        · split
          · exact hev
          · next r heq => exact shape_update_ok hev heq

theorem executeFineTuning_shape_eq {tid cid : String} {cfg : FTConfig}
    {a b c : List String} {w : World}
    {r : Except String ((Int × String × String) × FTConfig)}
    {w' : World} (heq : executeFineTuning tid cfg a b c w = (r, w'))
    (h : StoreShape tid cid w.tasks) :
    StoreShape tid cid w'.tasks := by
  have hx := executeFineTuning_shape tid cid cfg a b c w h
  rw [heq] at hx
  exact hx

/-- Whatever the outcome, the task store left by the pipeline body keeps
this run's task row in front. -/
theorem pipelineBody_shape (tid cid : String) (w : World) :
    StoreShape tid cid ((pipelineBody tid cid w).2).tasks := by
  unfold pipelineBody
  dsimp only
  split
  · exact ⟨_, _, rfl, rfl⟩
  · split
    · exact ⟨_, _, rfl, rfl⟩
    · split
      · exact ⟨_, _, rfl, rfl⟩
      · split
        · exact ⟨_, _, rfl, rfl⟩
        · rw [updateTaskStore_cons_self]
          dsimp only
          split
          · exact ⟨_, _, rfl, rfl⟩
          · rw [updateTaskStore_cons_self]
            dsimp only
            rw [updateTaskStore_cons_self]
            dsimp only
            split
            · exact ⟨_, _, rfl, rfl⟩
            · split
              · exact ⟨_, _, rfl, rfl⟩
              · rw [updateTaskStore_cons_self]
                dsimp only
                split
                · next e w' heq =>
                  exact executeFineTuning_shape_eq heq ⟨_, _, rfl, rfl⟩
                · next ft w' heq =>
                  have hsh := executeFineTuning_shape_eq heq ⟨_, _, rfl, rfl⟩
                  split
                  · exact hsh
                  · split
                    · exact hsh
                    · next r5 heq5 =>
                      have h5 := shape_update_ok hsh heq5
                      split
                      · exact h5
                      · split
                        · exact h5
                        · next r6 heq6 =>
                          exact shape_update_ok h5 heq6

/-- What the top-level handler guarantees for a run whose body raised
`exc`: the task row written last is this run's row with status `FAILED`,
a `current_step` and non-null `error` built from the step read back from
the last persisted status, every other field — in particular `progress` —
exactly as last persisted; the configuration's coarse status becomes
`"Failed"`; and the original exception is re-raised unchanged (the
handler performs no retry — the run ends in that error). -/
def PipelineFailedSpec (w : World) (tid cid exc : String) : Prop :=
  ∃ tOld rest,
    ((pipelineBody tid cid w).2).tasks = (tid, tOld) :: rest ∧
    (runPipeline tid cid w).1 = .error exc ∧
    (runPipeline tid cid w).2.tasks =
      (tid, { tOld with
          status := "FAILED",
          current_step := some ("Failed: " ++ optStr tOld.current_step),
          error := some ("Failed at " ++ sq ++ optStr tOld.current_step ++ sq ++
            ": " ++ exc) }) :: rest ∧
    (∀ row, lookupConfig ((pipelineBody tid cid w).2).configs cid = some row →
      lookupConfig (runPipeline tid cid w).2.configs cid =
        some { row with status := "Failed" })

/-- C1: whenever any stage of the pipeline body raises an unhandled
exception, the handler writes a terminal `FAILED` task status whose
error field is non-null and combines the failed step name with the
exception text, preserves the last persisted progress value (the written
record differs from the last persisted one only in status, step and
error), sets the configuration's separate coarse status to `"Failed"`,
and re-raises the original exception without retrying any stage. -/
theorem pipeline_unhandled_exception_writes_failed (w : World) (tid cid exc : String)
    (h : (pipelineBody tid cid w).1 = .error exc) :
    PipelineFailedSpec w tid cid exc := by
  obtain ⟨tOld, rest, hts, hcfg⟩ := pipelineBody_shape tid cid w
  unfold PipelineFailedSpec
  rcases hb : pipelineBody tid cid w with ⟨r, w1⟩
  rw [hb] at h hts
  dsimp only at h hts
  subst h
  have hrun : runPipeline tid cid w = handleFailure tid cid exc w1 := by
    unfold runPipeline
    rw [hb]
  rw [hrun]
  unfold handleFailure
  rw [hts]
  simp only [firstByConfig, hcfg, eq_self_iff_true, if_true, updateTaskStore_cons_self]
  obtain ⟨cid0, st0, cs0, pr0, er0, me0, re0⟩ := tOld
  refine ⟨_, rest, rfl, trivial, ?_, ?_⟩
  · cases pr0 <;> rfl
  · intro row hrow
    exact (setConfigStatus_found w1.configs cid "Failed" row hrow).2

/-- A world with no configuration rows: the run fails at the very first
stage. -/
def wEx1 : World :=
  { tasks := [], configs := [], datasets := [], hfToken := none,
    hfLogin := (0, "", ""), modelResolved := none, compatOk := true,
    fineTuneLines := [], fineTuneResult := (0, "", ""), createModel := (0, "", ""),
    shuffle := id }

/-- Witness for C1 at a run that raises at configuration lookup. -/
theorem pipeline_unhandled_exception_writes_failed_witness :
    (pipelineBody "t1" "c1" wEx1).1 = .error "No configuration found for ID c1" ∧
    PipelineFailedSpec wEx1 "t1" "c1" "No configuration found for ID c1" :=
  ⟨rfl, pipeline_unhandled_exception_writes_failed wEx1 "t1" "c1" _ rfl⟩

end FineTune
